import Mathlib

/-!
Verification of the docker-retag manifest retag engine
(`cmd/docker-retag/docker-retag.go`), shallowly embedded in Lean 4.

The embedding covers:
* the reference parser `urlToImageTag`;
* the credential resolver `registryAuth`, with Go's dynamic JSON values
  and unchecked type assertions modelled explicitly (a failed assertion
  is a Go runtime panic, represented as a distinct outcome);
* the registry client `getManifest` / `uploadManifest`, parameterised by
  the HTTP exchange outcome;
* the orchestration in `main`: dispatch of upload jobs and the result
  collection loop, with the arrival order of outcomes an explicit input.
-/

namespace DockerRetag

/-! ## Go string helpers

`goSplit` models Go `strings.Split` for a one-character separator,
`goJoin` models `strings.Join` with a one-character separator, both over
lists of characters. -/

/-- Go `strings.Split(s, sep)` for a single-character separator:
splits around every occurrence; `Split("", sep) = [""]`. -/
def goSplit (sep : Char) : List Char → List (List Char)
  | [] => [[]]
  | c :: cs =>
    match goSplit sep cs with
    | [] => [[]]
    | h :: t => if c = sep then [] :: h :: t else (c :: h) :: t

/-- Go `strings.Join(parts, sep)` for a single-character separator. -/
def goJoin (sep : Char) : List (List Char) → List Char
  | [] => []
  | [x] => x
  | x :: xs => x ++ sep :: goJoin sep xs

/-! ## Reference parser (`urlToImageTag`) -/

/-- The parsed form of a textual image reference:
registry host, repository path (called `image` in the source), and tag. -/
structure ImageReference where
  registry : String
  image : String
  tag : String
deriving Repr, DecidableEq

/-- The first stage of `urlToImageTag`: if the url contains `/`, the
part before the first `/` (`splitUrl[0]`) is the registry and the rest
re-joined with `/` is the image; otherwise the registry defaults to
`index.docker.io` and the whole url is the image.  The `[]` arm of the
match is unreachable (`goSplit` never returns `[]`). -/
def hostSplitGo (chars : List Char) : List Char × List Char :=
  if chars.contains '/' then
    match goSplit '/' chars with
    | [] => ([], [])
    | h :: t => (h, goJoin '/' t)
  else
    ("index.docker.io".data, chars)

/-- The second stage of `urlToImageTag`: if the image part contains
`:`, it is split on `:` and element 0 becomes the image, element 1 the
tag (`splitImage[0]`, `splitImage[1]`); otherwise the tag defaults to
`latest`. -/
def tagSplitGo (image0 : List Char) : List Char × List Char :=
  if image0.contains ':' then
    match goSplit ':' image0 with
    | [] => ([], [])
    | h :: t => (h, t.headD [])
  else
    (image0, "latest".data)

/-- Function `urlToImageTag` from the source.  The Go function's error result
is always `nil`, so the embedding returns the reference directly. -/
def urlToImageTag (url : String) : ImageReference :=
  let hs := hostSplitGo url.data
  let ts := tagSplitGo hs.2
  ⟨⟨hs.1⟩, ⟨ts.1⟩, ⟨ts.2⟩⟩

/-- The repository-path+tag portion of a url: what `urlToImageTag`
feeds into its tag-splitting stage. -/
def repoTagPortion (url : String) : List Char :=
  (hostSplitGo url.data).2

/-! ## Dynamic JSON values

Go's `encoding/json` decodes into `interface{}` as: `nil`, `bool`,
`float64`, `string`, `[]interface{}` or `map[string]interface{}`.
`JValue` models these (numbers restricted to integral values, which is
all the manifest schema uses).  A missing map key reads as the zero
`interface{}` value, i.e. `nil`, which `jnull` also represents. -/

inductive JValue where
  | jnull
  | jbool (b : Bool)
  | jnum (n : Int)
  | jstr (s : String)
  | jarr (elems : List JValue)
  | jobj (fields : List (String × JValue))

/-- Go map indexing `m[k]` on a decoded JSON object: the stored value,
or the zero value `nil` when the key is absent. -/
def lookupField (fields : List (String × JValue)) (k : String) : JValue :=
  match fields with
  | [] => .jnull
  | (k', v) :: rest => if k' = k then v else lookupField rest k

/-- Go type assertion `v.(map[string]interface{})` without the comma-ok
form: succeeds only on an object; on anything else (including `nil`)
the program panics, modelled by `none`. -/
def JValue.asObj : JValue → Option (List (String × JValue))
  | .jobj fields => some fields
  | _ => none

/-- Go type assertion `v.(string)`: succeeds only on a string. -/
def JValue.asStr : JValue → Option String
  | .jstr s => some s
  | _ => none

/-- Go `v == nil` on an `interface{}` holding a decoded JSON value. -/
def JValue.isNull : JValue → Bool
  | .jnull => true
  | _ => false

/-! ## Base64 (Go `base64.StdEncoding.EncodeToString`)

Standard base64 with padding over the UTF-8 bytes of a string, which is
what Go's `[]byte(s)` conversion yields. -/

/-- The standard base64 alphabet, indexed 0..63. -/
def b64Char (n : Nat) : Char :=
  (("ABCDEFGHIJKLMNOPQRSTUVWXYZabcdefghijklmnopqrstuvwxyz0123456789+/").data).getD n 'A'

/-- Standard base64 encoding with `=` padding of a byte list. -/
def base64Encode : List Nat → List Char
  | [] => []
  | [a] => [b64Char (a / 4), b64Char (a % 4 * 16), '=', '=']
  | [a, b] => [b64Char (a / 4), b64Char (a % 4 * 16 + b / 16), b64Char (b % 16 * 4), '=']
  | a :: b :: c :: rest =>
    b64Char (a / 4) :: b64Char (a % 4 * 16 + b / 16) ::
      b64Char (b % 16 * 4 + c / 64) :: b64Char (c % 64) :: base64Encode rest

/-- UTF-8 encoding of one Unicode code point. -/
def utf8EncodeChar (n : Nat) : List Nat :=
  if n < 0x80 then [n]
  else if n < 0x800 then [0xC0 + n / 0x40, 0x80 + n % 0x40]
  else if n < 0x10000 then
    [0xE0 + n / 0x1000, 0x80 + n / 0x40 % 0x40, 0x80 + n % 0x40]
  else
    [0xF0 + n / 0x40000, 0x80 + n / 0x1000 % 0x40, 0x80 + n / 0x40 % 0x40,
     0x80 + n % 0x40]

/-- The UTF-8 bytes of a string, Go's `[]byte(s)`. -/
def utf8Bytes (s : String) : List Nat :=
  (s.data.map (fun c => utf8EncodeChar c.toNat)).flatten

/-- Go `base64.StdEncoding.EncodeToString([]byte(s))`. -/
def base64Str (s : String) : String :=
  ⟨base64Encode (utf8Bytes s)⟩

/-! ## Credential resolver (`registryAuth`) -/

/-- The state of the docker config file `$HOME/.docker/config.json` as
the resolver observes it: absent (`os.Stat` fails), present but
unreadable (`ioutil.ReadFile` fails), present but not valid JSON for a
`map[string]interface{}` (`json.Unmarshal` fails), or parsed into a
top-level object.  JSON `null` unmarshals into a nil map, whose reads
behave like an empty object, so `parsed []` covers it. -/
inductive ConfigFile where
  | missing
  | unreadable (e : String)
  | unparsable (e : String)
  | parsed (dc : List (String × JValue))

/-- Outcome of `registryAuth`: a normal `(token, nil)` return (an empty
token means no Authorization header), a `("", err)` return, or a Go
runtime panic from a failed type assertion. -/
inductive AuthOutcome where
  | ok (token : String)
  | err (e : String)
  | panics (msg : String)
deriving Repr, DecidableEq

/-- Function `registryAuth` from the source.  The package-level `Username` /
`Password` globals and the `DOCKER_USER` / `DOCKER_PASS` environment
variables are passed as parameters, as is the observed config file.
The two unchecked type assertions on `dc["auths"]` and
`auths[registry]` panic when the value is not an object (in
particular when the key is absent and the read yields `nil`). -/
def registryAuth (username password dockerUser dockerPass : String)
    (config : ConfigFile) (registry : String) : AuthOutcome :=
  if username ≠ "" ∧ password ≠ "" then
    .ok (base64Str (username ++ ":" ++ password))
  else if dockerUser ≠ "" ∧ dockerPass ≠ "" then
    .ok (base64Str (dockerUser ++ ":" ++ dockerPass))
  else
    match config with
    | .missing => .ok ""
    | .unreadable e => .err e
    | .unparsable e => .err e
    | .parsed dc =>
      match (lookupField dc "auths").asObj with
      | none => .panics "interface conversion: auths is not a map"
      | some auths =>
        match (lookupField auths registry).asObj with
        | none => .panics "interface conversion: registry entry is not a map"
        | some auth =>
          if (lookupField auth "auth").isNull then .ok ""
          else
            match (lookupField auth "auth").asStr with
            | none => .panics "interface conversion: auth is not a string"
            | some s => .ok s

/-! ## Manifest and its JSON encoding

`Manifest` mirrors the source struct: `mediaType`, `schemaVersion`, a
`config` descriptor and a list of `layers` descriptors, each descriptor
being `{mediaType, digest, size}` (Go `int` sizes are embedded as
`Int`; the program does no arithmetic on them). -/

/-- One content descriptor, the anonymous struct
`{MediaType string; Digest string; Size int}` of the source. -/
structure Descriptor where
  mediaType : String
  digest : String
  size : Int
deriving Repr, DecidableEq

/-- The `Manifest` struct of the source. -/
structure Manifest where
  mediaType : String
  schemaVersion : Int
  config : Descriptor
  layers : List Descriptor
deriving Repr, DecidableEq

/-- Go `json.Marshal` of a descriptor: all fields emitted, in struct
order, under the `json:"..."` tag names. -/
def marshalDescriptor (d : Descriptor) : JValue :=
  .jobj [("mediaType", .jstr d.mediaType), ("digest", .jstr d.digest),
         ("size", .jnum d.size)]

/-- Go `json.Marshal` of a `Manifest`. -/
def marshalManifest (m : Manifest) : JValue :=
  .jobj [("mediaType", .jstr m.mediaType),
         ("schemaVersion", .jnum m.schemaVersion),
         ("config", marshalDescriptor m.config),
         ("layers", .jarr (m.layers.map marshalDescriptor))]

/-! `json.Unmarshal` into the struct, one decoder per field type.
Go semantics: a missing key or JSON `null` leaves the field at its zero
value; a value of the wrong type is an unmarshal error. -/

/-- Decode a JSON value into a Go `string` field. -/
def decodeString (v : JValue) : Except String String :=
  match v with
  | .jnull => .ok ""
  | .jstr s => .ok s
  | _ => .error "json: cannot unmarshal value into Go value of type string"

/-- Decode a JSON value into a Go `int` field. -/
def decodeInt (v : JValue) : Except String Int :=
  match v with
  | .jnull => .ok 0
  | .jnum n => .ok n
  | _ => .error "json: cannot unmarshal value into Go value of type int"

/-- Decode a JSON value into a descriptor struct field. -/
def decodeDescriptor (v : JValue) : Except String Descriptor :=
  match v with
  | .jnull => .ok ⟨"", "", 0⟩
  | .jobj fields =>
    match decodeString (lookupField fields "mediaType") with
    | .error e => .error e
    | .ok mt =>
      match decodeString (lookupField fields "digest") with
      | .error e => .error e
      | .ok dg =>
        match decodeInt (lookupField fields "size") with
        | .error e => .error e
        | .ok sz => .ok ⟨mt, dg, sz⟩
  | _ => .error "json: cannot unmarshal value into Go struct"

/-- Decode a JSON array element-wise into descriptors, stopping at the
first element of the wrong shape. -/
def decodeDescriptorList : List JValue → Except String (List Descriptor)
  | [] => .ok []
  | v :: rest =>
    match decodeDescriptor v with
    | .error e => .error e
    | .ok d =>
      match decodeDescriptorList rest with
      | .error e => .error e
      | .ok ds => .ok (d :: ds)

/-- Decode a JSON value into the `Layers` slice field (`null` or a
missing key yields the nil slice). -/
def decodeLayers (v : JValue) : Except String (List Descriptor) :=
  match v with
  | .jnull => .ok []
  | .jarr elems => decodeDescriptorList elems
  | _ => .error "json: cannot unmarshal value into Go slice"

/-- Go `json.Unmarshal(bd, &m)` for `m : Manifest`, given the JSON value
`bd` parses to.  Field names are matched exactly (the tag names); the
manifests this program round-trips use exactly those names. -/
def unmarshalManifest (v : JValue) : Except String Manifest :=
  match v with
  | .jnull => .ok ⟨"", 0, ⟨"", "", 0⟩, []⟩
  | .jobj fields =>
    match decodeString (lookupField fields "mediaType") with
    | .error e => .error e
    | .ok mt =>
      match decodeInt (lookupField fields "schemaVersion") with
      | .error e => .error e
      | .ok sv =>
        match decodeDescriptor (lookupField fields "config") with
        | .error e => .error e
        | .ok cfg =>
          match decodeLayers (lookupField fields "layers") with
          | .error e => .error e
          | .ok ls => .ok ⟨mt, sv, cfg, ls⟩
  | _ => .error "json: cannot unmarshal value into Go struct"

/-! ## Registry client (`getManifest`, `uploadManifest`)

The HTTP exchange is a parameter: either the transport fails
(`c.Do` returns an error), the response body fails to read
(`ioutil.ReadAll` fails), or a response with a status code, a status
text and a body arrives.  The body is carried as the outcome of
JSON-parsing its bytes, since the program only ever unmarshals it. -/

/-- Outcome of one HTTP request as the client observes it. -/
inductive HttpResult where
  | transportErr (e : String)
  | readErr (status : Nat) (statusText : String) (e : String)
  | resp (status : Nat) (statusText : String) (body : Except String JValue)

/-- The manifest URL built by both client operations:
`protocol://registry/v2/image/manifests/tag`. -/
def manifestUrl (protocol registry image tag : String) : String :=
  protocol ++ "://" ++ registry ++ "/v2/" ++ image ++ "/manifests/" ++ tag

/-- Function `registryProtocol`: `http` when `INSECURE_REGISTRY` is the string
`true`, `https` otherwise. -/
def registryProtocol (insecureRegistry : String) : String :=
  if insecureRegistry = "true" then "http" else "https"

/-- The tail of `getManifest` after the GET is issued: read the body
(a read error is returned as-is), require status 200 (any other
status is returned as `errors.New(resp.Status)`), then unmarshal the
body into a `Manifest`. -/
def getManifestResult (h : HttpResult) : Except String Manifest :=
  match h with
  | .transportErr e => .error e
  | .readErr _ _ e => .error e
  | .resp status statusText body =>
    if status = 200 then
      match body with
      | .error e => .error e
      | .ok v => unmarshalManifest v
    else .error statusText

/-- The PUT request `uploadManifest` sends: `Content-Type` is the
manifest's own `MediaType`, the body is `json.Marshal(manifest)`, and
the `Authorization` header is `Basic token` unless the token is
empty. -/
structure PutRequest where
  contentType : String
  body : JValue
  authHeader : Option String

/-- The request `uploadManifest` builds for a manifest and a resolved
auth token. -/
def uploadRequest (manifest : Manifest) (auth : String) : PutRequest :=
  ⟨manifest.mediaType, marshalManifest manifest,
   if auth = "" then none else some ("Basic " ++ auth)⟩

/-- The tail of `uploadManifest` after the PUT is issued: read the body
(a read error is returned), then require status 201 (any other status
is returned as `errors.New(resp.Status)`). -/
def uploadManifestResult (h : HttpResult) : Except String Unit :=
  match h with
  | .transportErr e => .error e
  | .readErr _ _ e => .error e
  | .resp status statusText _ =>
    if status = 201 then .ok () else .error statusText

/-! ## Orchestration (`main`)

After flag handling, `main` fetches the manifest from the source
reference; on error it exits with code 1 before any upload job exists.
On success it starts `min(10, N)` workers, sends one `UploadJob` per
target reference on the jobs channel, closes it, and then receives
exactly `len(newImages)` results — except that the loop body calls
`os.Exit(1)` as soon as a received result is a non-nil error.

The nondeterministic arrival order of results is an explicit input: a
list of outcomes (`none` = nil error, `some e` = failed upload), in
the order the collection loop receives them. -/

/-- The unit of work sent to a worker: the fetched manifest and one
target reference. -/
structure UploadJob where
  manifest : Manifest
  image : String
deriving Repr, DecidableEq

/-- The worker count chosen by `main`: 10, lowered to the number of
target references when there are fewer. -/
def workerCount (numTargets : Nat) : Nat :=
  if numTargets < 10 then numTargets else 10

/-- The jobs `main` sends on the jobs channel: one per target
reference, in order, all carrying the same fetched manifest. -/
def dispatchJobs (manifest : Manifest) (targets : List String) : List UploadJob :=
  targets.map (fun t => ⟨manifest, t⟩)

/-- The result collection loop of `main`, run over the outcomes in
arrival order: each iteration receives one outcome; a non-nil error
makes the process exit immediately (`os.Exit(1)`).  Returns the number
of outcomes actually received and `some e` when the process exited on
error `e` (`none` = the loop ran to completion). -/
def collectLoop : List (Option String) → Nat × Option String
  | [] => (0, none)
  | none :: rest =>
    let r := collectLoop rest
    (r.1 + 1, r.2)
  | some e :: _ => (1, some e)

/-- What one run of the retag phase of `main` does, as a trace:
how many upload jobs were dispatched, how many outcomes the collection
loop received, and whether the process exited with an error. -/
structure RunTrace where
  dispatched : Nat
  collected : Nat
  exitErr : Option String
deriving Repr, DecidableEq

/-- The retag phase of `main`: `fetch` is the result of
`getManifest(image)`, `targets` the remaining arguments, and
`outcomes` the upload results in the order the collection loop
receives them (one per dispatched job when the loop is allowed to
drain them all). -/
def mainRetag (fetch : Except String Manifest) (targets : List String)
    (outcomes : List (Option String)) : RunTrace :=
  match fetch with
  | .error e => ⟨0, 0, some e⟩
  | .ok m =>
    let jobs := dispatchJobs m targets
    let c := collectLoop outcomes
    ⟨jobs.length, c.1, c.2⟩

/-- A concrete manifest used to instantiate closed-form statements. -/
def exampleManifest : Manifest :=
  ⟨"application/vnd.docker.distribution.manifest.v2+json", 2,
   ⟨"application/vnd.docker.container.image.v1+json", "sha256:aaa", 7023⟩,
   [⟨"application/vnd.docker.image.rootfs.diff.tar.gzip", "sha256:bbb", 32654⟩]⟩

/-! ## Supporting lemmas -/

theorem goSplit_ne_nil (sep : Char) (l : List Char) : goSplit sep l ≠ [] := by
  cases l with
  | nil => simp [goSplit]
  | cons c cs =>
    simp only [goSplit]
    cases goSplit sep cs with
    | nil => simp
    | cons h t =>
      by_cases hc : c = sep <;> simp [hc]

/-- Splitting in closed form: when the separator occurs, the first
chunk is the prefix before the first occurrence and the remaining
chunks are the split of the suffix after it; otherwise the whole list
is the single chunk. -/
theorem goSplit_eq_cons (sep : Char) (l : List Char) :
    goSplit sep l =
      if sep ∈ l then
        l.takeWhile (· != sep) :: goSplit sep ((l.dropWhile (· != sep)).tail)
      else [l] := by
  induction l with
  | nil => simp [goSplit]
  | cons c cs ih =>
    obtain ⟨h1, t1, heq⟩ : ∃ h1 t1, goSplit sep cs = h1 :: t1 := by
      cases hgs : goSplit sep cs with
      | nil => exact absurd hgs (goSplit_ne_nil sep cs)
      | cons h1 t1 => exact ⟨h1, t1, rfl⟩
    by_cases hc : c = sep
    · have hmem : sep ∈ c :: cs := by
        rw [hc]
        exact List.mem_cons_self _ _
      simp only [goSplit, heq, if_pos hc, if_pos hmem]
      simp [List.takeWhile_cons, List.dropWhile_cons, hc, heq]
    · by_cases hcs : sep ∈ cs
      · rw [if_pos hcs] at ih
        have hmem : sep ∈ c :: cs := List.mem_cons_of_mem c hcs
        simp only [goSplit, ih, if_neg hc, if_pos hmem]
        simp [List.takeWhile_cons, List.dropWhile_cons, hc, bne_iff_ne]
      · rw [if_neg hcs] at ih
        have hmem : sep ∉ c :: cs := by
          simp only [List.mem_cons, not_or]
          exact ⟨fun hEq => hc hEq.symm, hcs⟩
        simp only [goSplit, ih, if_neg hc, if_neg hmem]

/-- The first chunk of a `goSplit` is the longest prefix free of the
separator, whether or not the separator occurs. -/
theorem goSplit_headD (sep : Char) (l : List Char) :
    (goSplit sep l).headD [] = l.takeWhile (· != sep) := by
  rw [goSplit_eq_cons]
  by_cases h : sep ∈ l
  · simp [h]
  · rw [if_neg h]
    have hself : l.takeWhile (· != sep) = l := by
      rw [List.takeWhile_eq_self_iff]
      intro x hx
      simp only [bne_iff_ne, ne_eq]
      rintro rfl
      exact h hx
    simp [hself]

example : urlToImageTag "hello.example.com/myimage/path:v1" =
    ⟨"hello.example.com", "myimage/path", "v1"⟩ := by decide

example : urlToImageTag "myimage" = ⟨"index.docker.io", "myimage", "latest"⟩ := by
  decide

/-- The tag-splitting stage in closed form: with a colon present the
image is the prefix before the first colon and the tag the run between
the first colon and the second (or the end); with no colon the image
is untouched and the tag is `latest`. -/
theorem tagSplitGo_eq (l : List Char) :
    tagSplitGo l =
      if ':' ∈ l then
        (l.takeWhile (· != ':'),
         ((l.dropWhile (· != ':')).tail).takeWhile (· != ':'))
      else (l, "latest".data) := by
  unfold tagSplitGo
  by_cases h : ':' ∈ l
  · have hcontains : l.contains ':' = true := List.elem_eq_true_of_mem h
    rw [if_pos h, if_pos hcontains, goSplit_eq_cons, if_pos h]
    simpa using goSplit_headD ':' ((l.dropWhile (· != ':')).tail)
  · have hcontains : l.contains ':' = false := by
      simp [List.elem_eq_mem, h]
    have hcond : ¬ (l.contains ':' = true) := by
      rw [hcontains]
      exact Bool.false_ne_true
    rw [if_neg h, if_neg hcond]

/-- The image and tag of a parsed reference are the two components of
the tag-splitting stage applied to the repository-path+tag portion. -/
theorem urlToImageTag_parts (url : String) :
    (urlToImageTag url).image = ⟨(tagSplitGo (repoTagPortion url)).1⟩ ∧
    (urlToImageTag url).tag = ⟨(tagSplitGo (repoTagPortion url)).2⟩ :=
  ⟨rfl, rfl⟩

example : base64Str "user:pass" = "dXNlcjpwYXNz" := by decide

theorem decodeDescriptor_marshal (d : Descriptor) :
    decodeDescriptor (marshalDescriptor d) = .ok d := by
  cases d
  rfl

theorem decodeDescriptorList_marshal (l : List Descriptor) :
    decodeDescriptorList (l.map marshalDescriptor) = .ok l := by
  induction l with
  | nil => rfl
  | cons d rest ih =>
    simp only [List.map_cons, decodeDescriptorList, decodeDescriptor_marshal, ih]

/-- Decoding the JSON encoding of a manifest recovers the manifest
exactly. -/
theorem unmarshal_marshal (m : Manifest) :
    unmarshalManifest (marshalManifest m) = .ok m := by
  cases m with
  | mk mt sv cfg ls =>
    simp [marshalManifest, unmarshalManifest, lookupField,
      decodeString, decodeInt, decodeLayers, decodeDescriptor_marshal,
      decodeDescriptorList_marshal]

/-- The collection loop on an arrival order whose first failure comes
after `pre.length` successes: it receives `pre.length + 1` outcomes
and exits with that first failure. -/
theorem collectLoop_first_failure (pre post : List (Option String)) (e : String)
    (hpre : ∀ x ∈ pre, x = none) :
    collectLoop (pre ++ some e :: post) = (pre.length + 1, some e) := by
  induction pre with
  | nil => rfl
  | cons x xs ih =>
    have hx : x = none := hpre x (List.mem_cons_self _ _)
    subst hx
    simp only [List.cons_append, collectLoop, List.append_eq]
    rw [ih (fun y hy => hpre y (List.mem_cons_of_mem _ hy))]
    simp

/-! ## Claim theorems -/

/-- Claim C2 (counterexample): the claim says the tag is the substring
after the LAST `:` of the repository-path+tag string.  On `a:b:c`
(whose repository-path+tag portion is the whole input) the parser
returns tag `b` — the substring after the FIRST colon — not `c`, and
repository path `a`, not `a:b`. -/
theorem urlToImageTag_multi_colon_counterexample :
    urlToImageTag "a:b:c" = ⟨"index.docker.io", "a", "b"⟩ ∧
    (urlToImageTag "a:b:c").tag ≠ "c" ∧
    (urlToImageTag "a:b:c").image ≠ "a:b" := by
  decide

/-- Claim C2 (amended): for every repository-path+tag string containing
at least one `:`, the parser returns as tag the run of characters
strictly between the FIRST `:` and the next `:` (or the end of the
string), and as repository path the part before the first `:`; for
every such string without `:`, the tag is `latest` and the repository
path is the whole string. -/
theorem urlToImageTag_tag_after_first_colon (url : String) :
    (':' ∈ repoTagPortion url →
      (urlToImageTag url).image = ⟨(repoTagPortion url).takeWhile (· != ':')⟩ ∧
      (urlToImageTag url).tag =
        ⟨(((repoTagPortion url).dropWhile (· != ':')).tail).takeWhile (· != ':')⟩) ∧
    (':' ∉ repoTagPortion url →
      (urlToImageTag url).image = ⟨repoTagPortion url⟩ ∧
      (urlToImageTag url).tag = "latest") := by
  obtain ⟨h1, h2⟩ := urlToImageTag_parts url
  rw [tagSplitGo_eq] at h1 h2
  constructor
  · intro h
    rw [if_pos h] at h1 h2
    exact ⟨h1, h2⟩
  · intro h
    rw [if_neg h] at h1 h2
    exact ⟨h1, h2⟩

/-- Witness for the amended claim C2 at the input `h/a:b:c`. -/
theorem urlToImageTag_tag_after_first_colon_witness :
    (urlToImageTag "h/a:b:c").image = ⟨(repoTagPortion "h/a:b:c").takeWhile (· != ':')⟩ ∧
    (urlToImageTag "h/a:b:c").tag =
      ⟨(((repoTagPortion "h/a:b:c").dropWhile (· != ':')).tail).takeWhile (· != ':')⟩ :=
  (urlToImageTag_tag_after_first_colon "h/a:b:c").1 (by decide)

/-- Claim C3 (counterexample): the claim says the repository path is
never empty; parsing `:v1` yields an empty repository path. -/
theorem urlToImageTag_empty_image_counterexample :
    (urlToImageTag ":v1").image = "" ∧
    urlToImageTag ":v1" = ⟨"index.docker.io", "", "v1"⟩ := by
  decide

/-- Claim C3 (amended): the repository path of a parsed reference is
empty exactly when the repository-path+tag portion of the input is
empty or begins with `:`; for every other input it is non-empty. -/
theorem urlToImageTag_image_empty_iff (url : String) :
    (urlToImageTag url).image = "" ↔
      repoTagPortion url = [] ∨ (repoTagPortion url).head? = some ':' := by
  obtain ⟨h1, -⟩ := urlToImageTag_parts url
  rw [h1, tagSplitGo_eq]
  cases hp : repoTagPortion url with
  | nil => simp
  | cons c rest =>
    by_cases hc : c = ':'
    · subst hc
      have hmem : ':' ∈ ':' :: rest := List.mem_cons_self _ _
      rw [if_pos hmem]
      simp [List.takeWhile_cons]
    · by_cases hmem : ':' ∈ c :: rest
      · rw [if_pos hmem]
        simp [List.takeWhile_cons, hc, String.ext_iff]
      · rw [if_neg hmem]
        simp [String.ext_iff, hc]

/-- Claim C1 (counterexample): the claim says a failing outcome never
causes the collection loop to return before every dispatched outcome
has been received.  With two dispatched jobs and a failure arriving
first, the loop receives only one of the two outcomes before the
process exits. -/
theorem mainRetag_early_exit_counterexample :
    mainRetag (.ok exampleManifest) ["t1", "t2"] [some "upload failed", none] =
      ⟨2, 1, some "upload failed"⟩ ∧
    (mainRetag (.ok exampleManifest) ["t1", "t2"]
        [some "upload failed", none]).collected ≠ 2 := by
  decide

/-- Claim C1 (amended): when the orchestrator has dispatched publish
jobs for N target references and the first failing outcome arrives
after k successful outcomes, it reports overall failure surfacing
that first failure in collection order — but it exits the process at
that point, having received only k+1 of the N dispatched outcomes;
later outcomes are never collected. -/
theorem mainRetag_first_failure_exits_early (m : Manifest)
    (targets : List String) (pre post : List (Option String)) (e : String)
    (_hlen : (pre ++ some e :: post).length = targets.length)
    (hpre : ∀ x ∈ pre, x = none) :
    mainRetag (.ok m) targets (pre ++ some e :: post) =
      ⟨targets.length, pre.length + 1, some e⟩ := by
  simp only [mainRetag, dispatchJobs, List.length_map]
  rw [collectLoop_first_failure pre post e hpre]

/-- Witness for the amended claim C1: three targets, the failure arriving
second; exactly two outcomes are received. -/
theorem mainRetag_first_failure_exits_early_witness :
    mainRetag (.ok exampleManifest) ["t1", "t2", "t3"]
        ([none] ++ some "boom" :: [none]) =
      ⟨3, 2, some "boom"⟩ :=
  mainRetag_first_failure_exits_early exampleManifest ["t1", "t2", "t3"]
    [none] [none] "boom" (by decide) (by decide)

/-- Claim C8: if the manifest fetch from the source reference fails (for
any reason), the run exits reporting that failure with zero upload
jobs dispatched and zero outcomes collected — no publish is ever
attempted against any target reference. -/
theorem mainRetag_fetch_failure_aborts (e : String) (targets : List String)
    (outcomes : List (Option String)) :
    mainRetag (.error e) targets outcomes = ⟨0, 0, some e⟩ :=
  rfl

/-- Claim C4: the claim says that with no explicit or environment
credentials and a valid credential store lacking an entry for the
host (or lacking a well-formed `auths` mapping), the resolver returns
"absent" without error.  Evaluating the embedded resolver at such
stores shows the unchecked type assertions instead panic: with
`{"auths": {}}` the assertion `auths[registry].(map[string]interface{})`
receives `nil`, and with `{}` the assertion
`dc["auths"].(map[string]interface{})` receives `nil`. -/
theorem registryAuth_missing_entry_panics :
    registryAuth "" "" "" "" (.parsed [("auths", .jobj [])]) "example.com" =
      .panics "interface conversion: registry entry is not a map" ∧
    registryAuth "" "" "" "" (.parsed []) "example.com" =
      .panics "interface conversion: auths is not a map" := by
  decide

/-- Claim C5: credential precedence is strictly explicit > environment >
config file > absent.  Explicit username+password (both non-empty)
always yield base64(`user:pass`) regardless of every lower-priority
source; otherwise non-empty `DOCKER_USER`/`DOCKER_PASS` yield
base64(`user:pass`) regardless of the config file; otherwise a config
store whose `auths` entry for the host carries a string `auth` value
returns that string verbatim; otherwise, with no store file, the
resolver reports absent (empty token, no error). -/
theorem registryAuth_precedence (u p du dp reg s : String) (cfg : ConfigFile)
    (auths entry : List (String × JValue)) :
    (u ≠ "" → p ≠ "" →
      registryAuth u p du dp cfg reg = .ok (base64Str (u ++ ":" ++ p))) ∧
    ((u = "" ∨ p = "") → du ≠ "" → dp ≠ "" →
      registryAuth u p du dp cfg reg = .ok (base64Str (du ++ ":" ++ dp))) ∧
    ((u = "" ∨ p = "") → (du = "" ∨ dp = "") →
      lookupField auths reg = .jobj entry →
      lookupField entry "auth" = .jstr s →
      registryAuth u p du dp (.parsed [("auths", .jobj auths)]) reg = .ok s) ∧
    ((u = "" ∨ p = "") → (du = "" ∨ dp = "") →
      registryAuth u p du dp .missing reg = .ok "") := by
  have hneg : ∀ a b : String, (a = "" ∨ b = "") → ¬(a ≠ "" ∧ b ≠ "") := by
    rintro a b (h | h) ⟨ha, hb⟩
    · exact ha h
    · exact hb h
  refine ⟨?_, ?_, ?_, ?_⟩
  · intro hu hp
    simp only [registryAuth, if_pos (And.intro hu hp)]
  · intro hup hdu hdp
    simp only [registryAuth, if_neg (hneg u p hup), if_pos (And.intro hdu hdp)]
  · intro hup hdd hauths hentry
    simp only [registryAuth, if_neg (hneg u p hup), if_neg (hneg du dp hdd)]
    simp [lookupField, JValue.asObj, hauths, hentry, JValue.isNull, JValue.asStr]
  · intro hup hdd
    simp only [registryAuth, if_neg (hneg u p hup), if_neg (hneg du dp hdd)]

/-- Witness for claim C5: one concrete instance of each of the four
precedence outcomes. -/
theorem registryAuth_precedence_witness :
    registryAuth "alice" "pw" "bob" "pw2" .missing "r" =
      .ok (base64Str "alice:pw") ∧
    registryAuth "" "ignored" "bob" "pw2"
        (.parsed [("auths", .jobj [("r", .jobj [("auth", .jstr "zzz")])])]) "r" =
      .ok (base64Str "bob:pw2") ∧
    registryAuth "" "" "" ""
        (.parsed [("auths", .jobj [("r", .jobj [("auth", .jstr "tok")])])]) "r" =
      .ok "tok" ∧
    registryAuth "" "" "" "" .missing "r" = .ok "" :=
  ⟨(registryAuth_precedence "alice" "pw" "bob" "pw2" "r" "" .missing [] []).1
      (by decide) (by decide),
   (registryAuth_precedence "" "ignored" "bob" "pw2" "r" ""
      (.parsed [("auths", .jobj [("r", .jobj [("auth", .jstr "zzz")])])]) [] []).2.1
      (Or.inl rfl) (by decide) (by decide),
   (registryAuth_precedence "" "" "" "" "r" "tok" .missing
      [("r", .jobj [("auth", .jstr "tok")])] [("auth", .jstr "tok")]).2.2.1
      (Or.inl rfl) (Or.inl rfl) rfl rfl,
   (registryAuth_precedence "" "" "" "" "r" "" .missing [] []).2.2.2
      (Or.inl rfl) (Or.inl rfl)⟩

/-- Claim C6: with the higher-priority credential sources absent, a
store file that exists but cannot be read, or cannot be parsed as
valid structured data, makes the resolver return that error; a
missing store file is not an error and resolves to absent. -/
theorem registryAuth_config_file_errors (u p du dp reg e : String)
    (hup : u = "" ∨ p = "") (hdd : du = "" ∨ dp = "") :
    registryAuth u p du dp (.unreadable e) reg = .err e ∧
    registryAuth u p du dp (.unparsable e) reg = .err e ∧
    registryAuth u p du dp .missing reg = .ok "" := by
  have hneg : ∀ a b : String, (a = "" ∨ b = "") → ¬(a ≠ "" ∧ b ≠ "") := by
    rintro a b (h | h) ⟨ha, hb⟩
    · exact ha h
    · exact hb h
  refine ⟨?_, ?_, ?_⟩ <;>
    simp only [registryAuth, if_neg (hneg u p hup), if_neg (hneg du dp hdd)]

/-- Witness for claim C6 at concrete error strings. -/
theorem registryAuth_config_file_errors_witness :
    registryAuth "" "" "" "" (.unreadable "permission denied") "r" =
      .err "permission denied" ∧
    registryAuth "" "" "" "" (.unparsable "invalid character") "r" =
      .err "invalid character" ∧
    registryAuth "" "" "" "" .missing "r" = .ok "" :=
  ⟨(registryAuth_config_file_errors "" "" "" "" "r" "permission denied"
      (Or.inl rfl) (Or.inl rfl)).1,
   (registryAuth_config_file_errors "" "" "" "" "r" "invalid character"
      (Or.inl rfl) (Or.inl rfl)).2.1,
   (registryAuth_config_file_errors "" "" "" "" "r" "unused"
      (Or.inl rfl) (Or.inl rfl)).2.2⟩

/-- Claim C10: a credential source consisting of a username/password
pair is consulted only when BOTH are non-empty: if either member of
the explicit pair is empty, resolution behaves exactly as if the
explicit pair were entirely absent, and likewise for the
environment-variable pair — resolution falls through to the next
source in the chain. -/
theorem registryAuth_requires_both (u p du dp reg : String) (cfg : ConfigFile) :
    ((u = "" ∨ p = "") →
      registryAuth u p du dp cfg reg = registryAuth "" "" du dp cfg reg) ∧
    ((du = "" ∨ dp = "") →
      registryAuth u p du dp cfg reg = registryAuth u p "" "" cfg reg) := by
  have hneg : ∀ a b : String, (a = "" ∨ b = "") → ¬(a ≠ "" ∧ b ≠ "") := by
    rintro a b (h | h) ⟨ha, hb⟩
    · exact ha h
    · exact hb h
  have hblank : ¬(("" : String) ≠ "" ∧ ("" : String) ≠ "") := by
    rintro ⟨ha, -⟩
    exact ha rfl
  constructor
  · intro hup
    simp only [registryAuth, if_neg (hneg u p hup), if_neg hblank]
  · intro hdd
    by_cases hex : u ≠ "" ∧ p ≠ ""
    · simp only [registryAuth, if_pos hex]
    · simp only [registryAuth, if_neg hex, if_neg (hneg du dp hdd),
        if_neg hblank]

/-- Witness for claim C10: one explicit-pair member set, one environment
pair member set. -/
theorem registryAuth_requires_both_witness :
    registryAuth "alice" "" "bob" "pw" .missing "r" =
      registryAuth "" "" "bob" "pw" .missing "r" ∧
    registryAuth "" "" "bob" "" .missing "r" =
      registryAuth "" "" "" "" .missing "r" :=
  ⟨(registryAuth_requires_both "alice" "" "bob" "pw" "r" .missing).1
      (Or.inr rfl),
   (registryAuth_requires_both "" "" "bob" "" "r" .missing).2
      (Or.inr rfl)⟩

/-- Claim C7: `getManifest` succeeds exactly when the GET produced a
response with status 200 whose body decodes as a `Manifest`; a non-200
response yields an error carrying the status text, and a transport
failure yields an error carrying its cause.  `uploadManifest` succeeds
exactly when the PUT produced a response with status 201; any other
status yields an error carrying the status text, and a transport
failure its cause. -/
theorem manifest_http_status_contract :
    (∀ h m, getManifestResult h = .ok m ↔
      ∃ st v, h = .resp 200 st (.ok v) ∧ unmarshalManifest v = .ok m) ∧
    (∀ (st : Nat) stx body, st ≠ 200 →
      getManifestResult (.resp st stx body) = .error stx) ∧
    (∀ e, getManifestResult (.transportErr e) = .error e) ∧
    (∀ h, uploadManifestResult h = .ok () ↔
      ∃ st body, h = .resp 201 st body) ∧
    (∀ (st : Nat) stx body, st ≠ 201 →
      uploadManifestResult (.resp st stx body) = .error stx) ∧
    (∀ e, uploadManifestResult (.transportErr e) = .error e) := by
  refine ⟨?_, ?_, fun e => rfl, ?_, ?_, fun e => rfl⟩
  · intro h m
    constructor
    · intro heq
      cases h with
      | transportErr e => exact absurd heq (by simp [getManifestResult])
      | readErr st stx e => exact absurd heq (by simp [getManifestResult])
      | resp st stx body =>
        by_cases hst : st = 200
        · subst hst
          cases body with
          | error e =>
            exact absurd heq (by simp [getManifestResult])
          | ok v =>
            refine ⟨stx, v, rfl, ?_⟩
            simpa [getManifestResult] using heq
        · simp only [getManifestResult, if_neg hst] at heq
          exact absurd heq (by simp)
    · rintro ⟨st, v, rfl, hm⟩
      simp [getManifestResult, hm]
  · intro st stx body hst
    simp only [getManifestResult, if_neg hst]
  · intro h
    constructor
    · intro heq
      cases h with
      | transportErr e => exact absurd heq (by simp [uploadManifestResult])
      | readErr st stx e => exact absurd heq (by simp [uploadManifestResult])
      | resp st stx body =>
        by_cases hst : st = 201
        · subst hst
          exact ⟨stx, body, rfl⟩
        · simp only [uploadManifestResult, if_neg hst] at heq
          exact absurd heq (by simp)
    · rintro ⟨st, body, rfl⟩
      simp [uploadManifestResult]
  · intro st stx body hst
    simp only [uploadManifestResult, if_neg hst]

/-- Witness for claim C7: a 404 fetch response errors with the status text;
a 201 upload response succeeds. -/
theorem manifest_http_status_contract_witness :
    getManifestResult (.resp 404 "404 Not Found" (.ok .jnull)) =
      .error "404 Not Found" ∧
    uploadManifestResult (.resp 201 "201 Created" (.ok .jnull)) = .ok () :=
  ⟨manifest_http_status_contract.2.1 404 "404 Not Found" (.ok .jnull)
      (by decide),
   (manifest_http_status_contract.2.2.2.1
      (.resp 201 "201 Created" (.ok .jnull))).mpr
      ⟨"201 Created", .ok .jnull, rfl⟩⟩

/-- Claim C9: republishing a fetched manifest preserves the descriptor
fields exactly: the PUT body is the JSON encoding of the very
`Manifest` value the fetch decoded, the `Content-Type` is that
manifest's own media type, and decoding the sent body recovers the
manifest identically — config and layer digests, sizes, media types,
the manifest media type and the schema version all unchanged.  Only
the request URL (registry/repository/tag addressing) is recomputed
from the target reference. -/
theorem uploadRequest_roundtrip (m : Manifest) (tok : String) :
    (uploadRequest m tok).contentType = m.mediaType ∧
    (uploadRequest m tok).body = marshalManifest m ∧
    unmarshalManifest ((uploadRequest m tok).body) = .ok m :=
  ⟨rfl, rfl, unmarshal_marshal m⟩

end DockerRetag
